import Mathlib

/-!
Verification of the hybrid-images core (`hybrid.py`).

The module is embedded shallowly: numpy arrays of floats become total
functions into `ℚ` together with explicit dimensions, and each Python
function becomes a Lean definition translated line by line from the source.
The transcendental `np.exp(-d / (2 * sigma ** 2))` in the Gaussian kernel
generator is the one non-rational ingredient; it is abstracted as a weight
function `e : ℤ → ℚ` of the squared distance `d`, about which theorems
assume only what `exp` provides (strict positivity).
-/

namespace Hybrid

/-- Dense 3-D array of samples, dimensions (height, width, channels),
as produced by `cv2.imread`-style decoding.  `data` is a total function;
only indices below the dimensions are meaningful. -/
structure Image where
  H : ℕ
  W : ℕ
  C : ℕ
  data : ℕ → ℕ → ℕ → ℚ

/-- Dense 2-D array of kernel weights, dimensions (m, n). -/
structure Kernel where
  m : ℕ
  n : ℕ
  data : ℕ → ℕ → ℚ

/-- Squared distance from cell (i, j) to the center cell
(height // 2, width // 2), as in
`(i - center_y) ** 2 + (j - center_x) ** 2` of `gaussian_blur_kernel_2d`. -/
def distSq (height width i j : ℕ) : ℤ :=
  ((i : ℤ) - ((height / 2 : ℕ) : ℤ)) ^ 2 + ((j : ℤ) - ((width / 2 : ℕ) : ℤ)) ^ 2

/-- The unnormalized kernel entry `np.exp(-(distSq) / (2 * sigma ** 2))`,
with the exponential (a function of the squared distance) abstracted as
`e`. -/
def gaussEntry (e : ℤ → ℚ) (height width i j : ℕ) : ℚ :=
  e (distSq height width i j)

/-- `np.sum(kernel)` over the (height, width) grid, before normalization. -/
def gaussTotal (e : ℤ → ℚ) (height width : ℕ) : ℚ :=
  ∑ i ∈ Finset.range height, ∑ j ∈ Finset.range width, gaussEntry e height width i j

/-- `gaussian_blur_kernel_2d(sigma, height, width)`: fill the grid with
`exp(-((i - center_y)^2 + (j - center_x)^2) / (2 sigma^2))` and divide by
the total, `kernel = kernel / np.sum(kernel)`.  The exponential profile is
the abstract weight `e`. -/
def gaussian_blur_kernel_2d (e : ℤ → ℚ) (height width : ℕ) : Kernel :=
  { m := height
    n := width
    data := fun i j => gaussEntry e height width i j / gaussTotal e height width }

/-- `np.pad(img, ((ph, ph), (pw, pw), (0, 0)), mode='constant',
constant_values=0)`: sample (i, j, k) of the padded array is the original
sample shifted by the pad, and 0 in the padded border. -/
def paddedData (img : Image) (ph pw : ℕ) : ℕ → ℕ → ℕ → ℚ :=
  fun i j k =>
    if ph ≤ i ∧ i < img.H + ph ∧ pw ≤ j ∧ j < img.W + pw ∧ k < img.C then
      img.data (i - ph) (j - pw) k
    else 0

/-- `cross_correlation_2d(img, kernel)`: zero-pad by (m // 2, n // 2), and
at each output position take `np.sum(patch * kernel)` where `patch` is the
(m, n) window of the padded image at channel k starting at (i, j). -/
def cross_correlation_2d (img : Image) (ker : Kernel) : Image :=
  { H := img.H
    W := img.W
    C := img.C
    data := fun i j k =>
      ∑ a ∈ Finset.range ker.m, ∑ b ∈ Finset.range ker.n,
        paddedData img (ker.m / 2) (ker.n / 2) (i + a) (j + b) k * ker.data a b }

/-- `np.flip(kernel)`: reverse along both axes, entry (i, j) becomes entry
(m - 1 - i, n - 1 - j) of the original. -/
def flipKernel (ker : Kernel) : Kernel :=
  { m := ker.m
    n := ker.n
    data := fun i j => ker.data (ker.m - 1 - i) (ker.n - 1 - j) }

/-- `convolve_2d(img, kernel)`: cross-correlate with the flipped kernel. -/
def convolve_2d (img : Image) (ker : Kernel) : Image :=
  cross_correlation_2d img (flipKernel ker)

/-- `low_pass(img, sigma, size)`: correlate with the (size, size) Gaussian
kernel (whose profile is `e`). -/
def low_pass (e : ℤ → ℚ) (img : Image) (size : ℕ) : Image :=
  cross_correlation_2d img (gaussian_blur_kernel_2d e size size)

/-- `high_pass(img, sigma, size)`: the image minus its low-pass,
elementwise. -/
def high_pass (e : ℤ → ℚ) (img : Image) (size : ℕ) : Image :=
  { H := img.H
    W := img.W
    C := img.C
    data := fun i j k => img.data i j k - (low_pass e img size).data i j k }

/-- The numpy dtypes relevant to `create_hybrid_image`: the source only
tests `img1.dtype == np.uint8`, everything else behaves like float data. -/
inductive DType where
  | uint8
  | float32
deriving DecidableEq

/-- An image together with its numpy dtype, as passed to
`create_hybrid_image`. -/
structure RawImage where
  dtype : DType
  img : Image

/-- Scalar multiplication of every sample, modelling numpy broadcasted
`img * c` (and `img / 255` as multiplication by `1 / 255`). -/
def scaleImage (c : ℚ) (img : Image) : Image :=
  { H := img.H
    W := img.W
    C := img.C
    data := fun i j k => c * img.data i j k }

/-- The Python exceptions `create_hybrid_image` can meet: `valueError` is
the error numpy raises on incompatible broadcast shapes; `shapeMismatch`
is the typed error the spec postulates (never produced by the source). -/
inductive PyError where
  | valueError
  | shapeMismatch
deriving DecidableEq

/-- Whether two dimension sizes are broadcast-compatible in numpy:
equal, or one of them is 1. -/
def bcompat (a b : ℕ) : Bool :=
  a = b || a = 1 || b = 1

/-- Index into a broadcast axis of size `d`: a size-1 axis is repeated. -/
def bidx (d i : ℕ) : ℕ :=
  if d = 1 then 0 else i

/-- Elementwise `x + y` on 3-D numpy arrays: broadcast axis by axis when
compatible, otherwise raise `ValueError`. -/
def numpyAdd (x y : Image) : Except PyError Image :=
  if bcompat x.H y.H && bcompat x.W y.W && bcompat x.C y.C then
    Except.ok
      { H := max x.H y.H
        W := max x.W y.W
        C := max x.C y.C
        data := fun i j k =>
          x.data (bidx x.H i) (bidx x.W j) (bidx x.C k) +
            y.data (bidx y.H i) (bidx y.W j) (bidx y.C k) }
  else Except.error PyError.valueError

/-- An 8-bit output image: every sample a natural number (stored mod 256
by numpy, but the source clips to [0, 255] first). -/
structure UImage where
  H : ℕ
  W : ℕ
  C : ℕ
  data : ℕ → ℕ → ℕ → ℕ

/-- One sample of `(x).clip(0, 255).astype(np.uint8)`: clamp into
[0, 255] and truncate to an integer (truncation toward zero coincides
with floor on the clipped, nonnegative value). -/
def toUint8 (x : ℚ) : ℕ :=
  (⌊min 255 (max 0 x)⌋).toNat

/-- `(hybrid_img * 255).clip(0, 255).astype(np.uint8)`, samplewise. -/
def quantize (img : Image) : UImage :=
  { H := img.H
    W := img.W
    C := img.C
    data := fun i j k => toUint8 (255 * img.data i j k) }

/-- Lowercase an ASCII letter, as Python's `str.lower` does on the ASCII
mode strings `create_hybrid_image` receives. -/
def asciiLower (c : Char) : Char :=
  if 65 ≤ c.toNat ∧ c.toNat ≤ 90 then Char.ofNat (c.toNat + 32) else c

/-- Python's `s.lower()` on an ASCII string: lowercase every character. -/
def pyLower (s : String) : String :=
  String.mk (s.data.map asciiLower)

/-- The filter dispatch of `create_hybrid_image`: low-pass when the
(already lowercased) mode string equals "low", otherwise high-pass. -/
def selectFilter (e : ℤ → ℚ) (size : ℕ) (mode : String) (img : Image) : Image :=
  if mode = "low" then low_pass e img size else high_pass e img size

/-- The body of `create_hybrid_image` after the dtype normalization step:
filter each image by its own mode, weight by `1 - mix` and `mix`, add
(numpy broadcasting), scale by `sf`, and quantize to 8 bits. -/
def hybridAfterNorm (i1 i2 : Image) (e1 : ℤ → ℚ) (size1 : ℕ) (hl1 : String)
    (e2 : ℤ → ℚ) (size2 : ℕ) (hl2 : String) (mix sf : ℚ) :
    Except PyError UImage :=
  let f1 := selectFilter e1 size1 hl1 i1
  let f2 := selectFilter e2 size2 hl2 i2
  let g1 := scaleImage (1 - mix) f1
  let g2 := scaleImage mix f2
  match numpyAdd g1 g2 with
  | Except.error err => Except.error err
  | Except.ok s => Except.ok (quantize (scaleImage sf s))

/-- `create_hybrid_image(img1, img2, sigma1, size1, high_low1, sigma2,
size2, high_low2, mixin ratio, scale factor)`: lowercase both mode
strings; if `img1.dtype == np.uint8` divide both images by 255; then run
the filtering, mixing and quantization pipeline.  The Gaussian profiles
`e1`, `e2` stand for the two sigmas. -/
def create_hybrid_image (img1 img2 : RawImage) (e1 : ℤ → ℚ) (size1 : ℕ)
    (hl1 : String) (e2 : ℤ → ℚ) (size2 : ℕ) (hl2 : String) (mix sf : ℚ) :
    Except PyError UImage :=
  let m1 := pyLower hl1
  let m2 := pyLower hl2
  if img1.dtype = DType.uint8 then
    hybridAfterNorm (scaleImage (1 / 255) img1.img) (scaleImage (1 / 255) img2.img)
      e1 size1 m1 e2 size2 m2 mix sf
  else
    hybridAfterNorm img1.img img2.img e1 size1 m1 e2 size2 m2 mix sf

/-! ### Helper lemmas -/

lemma selectFilter_H (e : ℤ → ℚ) (size : ℕ) (mode : String) (img : Image) :
    (selectFilter e size mode img).H = img.H := by
  unfold selectFilter
  split <;> rfl

lemma selectFilter_W (e : ℤ → ℚ) (size : ℕ) (mode : String) (img : Image) :
    (selectFilter e size mode img).W = img.W := by
  unfold selectFilter
  split <;> rfl

lemma selectFilter_C (e : ℤ → ℚ) (size : ℕ) (mode : String) (img : Image) :
    (selectFilter e size mode img).C = img.C := by
  unfold selectFilter
  split <;> rfl

lemma bidx_of_lt {d i : ℕ} (h : i < d) : bidx d i = i := by
  unfold bidx
  split
  · omega
  · rfl

lemma toUint8_le (x : ℚ) : toUint8 x ≤ 255 := by
  unfold toUint8
  have h1 : min 255 (max 0 x) ≤ (255 : ℚ) := min_le_left _ _
  have h2 : ⌊min 255 (max 0 x)⌋ ≤ (255 : ℤ) := by
    have := Int.floor_le_floor h1
    simpa using this
  omega

/-- Positivity of the Gaussian normalizer when the grid is nonempty and
the weight function is positive (as `exp` is). -/
lemma gaussTotal_pos (e : ℤ → ℚ) (height width : ℕ) (hh : 0 < height)
    (hw : 0 < width) (hpos : ∀ d, 0 < e d) : 0 < gaussTotal e height width := by
  unfold gaussTotal
  apply Finset.sum_pos
  · intro i _
    apply Finset.sum_pos
    · intro j _
      exact hpos _
    · exact Finset.nonempty_range_iff.mpr (Nat.pos_iff_ne_zero.mp hw)
  · exact Finset.nonempty_range_iff.mpr (Nat.pos_iff_ne_zero.mp hh)

/-- The normalized Gaussian kernel sums to 1 whenever the grid is nonempty
and the weight function is positive; no oddness of the dimensions is
needed. -/
lemma gauss_sum_eq_one (e : ℤ → ℚ) (height width : ℕ) (hh : 0 < height)
    (hw : 0 < width) (hpos : ∀ d, 0 < e d) :
    ∑ i ∈ Finset.range height, ∑ j ∈ Finset.range width,
      (gaussian_blur_kernel_2d e height width).data i j = 1 := by
  have htot := gaussTotal_pos e height width hh hw hpos
  simp only [gaussian_blur_kernel_2d, ← Finset.sum_div]
  exact div_self (ne_of_gt htot)

/-- When the two filtered images have equal shapes, the filtering, mixing
and quantization pipeline succeeds and its output is characterized
samplewise. -/
lemma hybridAfterNorm_spec (i1 i2 : Image) (e1 : ℤ → ℚ) (size1 : ℕ)
    (hl1 : String) (e2 : ℤ → ℚ) (size2 : ℕ) (hl2 : String) (mix sf : ℚ)
    (hH : i1.H = i2.H) (hW : i1.W = i2.W) (hC : i1.C = i2.C) :
    ∃ out,
      hybridAfterNorm i1 i2 e1 size1 hl1 e2 size2 hl2 mix sf = Except.ok out ∧
      out.H = i1.H ∧ out.W = i1.W ∧ out.C = i1.C ∧
      (∀ i j k, i < i1.H → j < i1.W → k < i1.C →
        out.data i j k = toUint8 (255 * (sf *
          ((1 - mix) * (selectFilter e1 size1 hl1 i1).data i j k +
            mix * (selectFilter e2 size2 hl2 i2).data i j k)))) ∧
      (∀ i j k, out.data i j k ≤ 255) := by
  have h1H : (scaleImage (1 - mix) (selectFilter e1 size1 hl1 i1)).H = i1.H :=
    selectFilter_H _ _ _ _
  have h1W : (scaleImage (1 - mix) (selectFilter e1 size1 hl1 i1)).W = i1.W :=
    selectFilter_W _ _ _ _
  have h1C : (scaleImage (1 - mix) (selectFilter e1 size1 hl1 i1)).C = i1.C :=
    selectFilter_C _ _ _ _
  have h2H : (scaleImage mix (selectFilter e2 size2 hl2 i2)).H = i1.H :=
    (selectFilter_H _ _ _ _).trans hH.symm
  have h2W : (scaleImage mix (selectFilter e2 size2 hl2 i2)).W = i1.W :=
    (selectFilter_W _ _ _ _).trans hW.symm
  have h2C : (scaleImage mix (selectFilter e2 size2 hl2 i2)).C = i1.C :=
    (selectFilter_C _ _ _ _).trans hC.symm
  have hcond : (bcompat (scaleImage (1 - mix) (selectFilter e1 size1 hl1 i1)).H
        (scaleImage mix (selectFilter e2 size2 hl2 i2)).H &&
      bcompat (scaleImage (1 - mix) (selectFilter e1 size1 hl1 i1)).W
        (scaleImage mix (selectFilter e2 size2 hl2 i2)).W &&
      bcompat (scaleImage (1 - mix) (selectFilter e1 size1 hl1 i1)).C
        (scaleImage mix (selectFilter e2 size2 hl2 i2)).C) = true := by
    rw [h1H, h2H, h1W, h2W, h1C, h2C]
    simp [bcompat]
  simp only [hybridAfterNorm, numpyAdd]
  rw [if_pos hcond]
  refine ⟨_, rfl, ?_, ?_, ?_, ?_, ?_⟩
  · simp only [quantize, scaleImage]
    rw [selectFilter_H e1 size1 hl1 i1, selectFilter_H e2 size2 hl2 i2, ← hH,
      max_self]
  · simp only [quantize, scaleImage]
    rw [selectFilter_W e1 size1 hl1 i1, selectFilter_W e2 size2 hl2 i2, ← hW,
      max_self]
  · simp only [quantize, scaleImage]
    rw [selectFilter_C e1 size1 hl1 i1, selectFilter_C e2 size2 hl2 i2, ← hC,
      max_self]
  · intro i j k hi hj hk
    simp only [quantize, scaleImage]
    rw [selectFilter_H e1 size1 hl1 i1, selectFilter_H e2 size2 hl2 i2,
      selectFilter_W e1 size1 hl1 i1, selectFilter_W e2 size2 hl2 i2,
      selectFilter_C e1 size1 hl1 i1, selectFilter_C e2 size2 hl2 i2,
      ← hH, ← hW, ← hC]
    simp only [bidx_of_lt hi, bidx_of_lt hj, bidx_of_lt hk]
  · intro i j k
    exact toUint8_le _

/-! ### Concrete inputs used by witnesses and counterexamples -/

/-- A constant-valued (h, w, c) image. -/
def constImg (h w c : ℕ) (v : ℚ) : Image :=
  { H := h, W := w, C := c, data := fun _ _ _ => v }

/-- The constant weight profile; positive, as the Gaussian profile is. -/
def oneE : ℤ → ℚ := fun _ => 1

/-- A concrete 1×1 kernel. -/
def kerOne : Kernel :=
  { m := 1, n := 1, data := fun _ _ => 2 }

/-! ### Claim theorems -/

/-- C1: for every (H, W, C) image and every odd-by-odd (m, n) kernel,
`cross_correlation_2d` returns an image of the same shape, whose sample at
(i, j, k) is the sum over the kernel of the kernel weight times the
zero-padded image sample (pad m/2 rows, n/2 columns); at any pixel at
least m/2 from the top/bottom borders and n/2 from the left/right borders
the output is the unpadded weighted sum over the original image. -/
theorem cross_correlation_spec (img : Image) (ker : Kernel)
    (hm : Odd ker.m) (hn : Odd ker.n) :
    (cross_correlation_2d img ker).H = img.H ∧
    (cross_correlation_2d img ker).W = img.W ∧
    (cross_correlation_2d img ker).C = img.C ∧
    (∀ i j k, k < img.C →
      (cross_correlation_2d img ker).data i j k =
        ∑ a ∈ Finset.range ker.m, ∑ b ∈ Finset.range ker.n,
          (if ker.m / 2 ≤ i + a ∧ i + a < img.H + ker.m / 2 ∧
              ker.n / 2 ≤ j + b ∧ j + b < img.W + ker.n / 2 then
            img.data (i + a - ker.m / 2) (j + b - ker.n / 2) k
          else 0) * ker.data a b) ∧
    (∀ i j k, ker.m / 2 ≤ i → i + ker.m / 2 < img.H → ker.n / 2 ≤ j →
      j + ker.n / 2 < img.W → k < img.C →
      (cross_correlation_2d img ker).data i j k =
        ∑ a ∈ Finset.range ker.m, ∑ b ∈ Finset.range ker.n,
          img.data (i + a - ker.m / 2) (j + b - ker.n / 2) k * ker.data a b) := by
  refine ⟨rfl, rfl, rfl, ?_, ?_⟩
  · intro i j k hk
    simp only [cross_correlation_2d, paddedData]
    refine Finset.sum_congr rfl fun a _ => Finset.sum_congr rfl fun b _ => ?_
    refine congrArg (· * ker.data a b) ?_
    refine if_congr ?_ rfl rfl
    constructor
    · rintro ⟨h1, h2, h3, h4, _⟩
      exact ⟨h1, h2, h3, h4⟩
    · rintro ⟨h1, h2, h3, h4⟩
      exact ⟨h1, h2, h3, h4, hk⟩
  · intro i j k hpi hpi2 hpj hpj2 hk
    have hm2 : ker.m % 2 = 1 := Nat.odd_iff.mp hm
    have hn2 : ker.n % 2 = 1 := Nat.odd_iff.mp hn
    simp only [cross_correlation_2d, paddedData]
    refine Finset.sum_congr rfl fun a ha => Finset.sum_congr rfl fun b hb => ?_
    rw [Finset.mem_range] at ha hb
    rw [if_pos ⟨by omega, by omega, by omega, by omega, hk⟩]

/-- Witness for C1 at a concrete image and concrete odd kernel. -/
theorem cross_correlation_spec_witness :
    (cross_correlation_2d (constImg 1 1 1 7) kerOne).H = (constImg 1 1 1 7).H :=
  (cross_correlation_spec (constImg 1 1 1 7) kerOne (by decide) (by decide)).1

/-- C3: the elementwise sum of the high-pass and the low-pass of an image
is the original image exactly, for any positive odd size and positive
weight profile, since `high_pass` is the image minus its low-pass. -/
theorem high_plus_low_eq_original (e : ℤ → ℚ) (img : Image) (size : ℕ)
    (hpos : ∀ d, 0 < e d) (hsz : 0 < size) (hodd : Odd size) :
    ∀ i j k,
      (high_pass e img size).data i j k + (low_pass e img size).data i j k
        = img.data i j k := by
  intro i j k
  simp [high_pass]

/-- Witness for C3 at a concrete image, size 3, constant profile. -/
theorem high_plus_low_eq_original_witness :
    (high_pass oneE (constImg 1 1 1 7) 3).data 0 0 0 +
        (low_pass oneE (constImg 1 1 1 7) 3).data 0 0 0
      = (constImg 1 1 1 7).data 0 0 0 :=
  high_plus_low_eq_original oneE (constImg 1 1 1 7) 3 (fun _ => one_pos)
    (by decide) (by decide) 0 0 0

/-- C5: `convolve_2d` is cross-correlation with the doubly reversed
kernel, whose entry (i, j) is entry (m - 1 - i, n - 1 - j) of the
original; hence for a kernel symmetric under 180-degree rotation,
convolution and cross-correlation agree samplewise. -/
theorem convolve_eq_correlate_flip (img : Image) (ker : Kernel) :
    (∀ i j, (flipKernel ker).data i j
        = ker.data (ker.m - 1 - i) (ker.n - 1 - j)) ∧
    convolve_2d img ker = cross_correlation_2d img (flipKernel ker) ∧
    ((∀ i j, i < ker.m → j < ker.n →
        ker.data i j = ker.data (ker.m - 1 - i) (ker.n - 1 - j)) →
      ∀ i j k, (convolve_2d img ker).data i j k
        = (cross_correlation_2d img ker).data i j k) := by
  refine ⟨fun i j => rfl, rfl, ?_⟩
  intro hsym i j k
  simp only [convolve_2d, cross_correlation_2d, flipKernel]
  refine Finset.sum_congr rfl fun a ha => Finset.sum_congr rfl fun b hb => ?_
  rw [Finset.mem_range] at ha hb
  rw [← hsym a b ha hb]

/-- Witness for C5: the symmetric-kernel consequence at a concrete 1×1
kernel (trivially 180-degree symmetric). -/
theorem convolve_eq_correlate_flip_witness :
    (convolve_2d (constImg 1 1 1 7) kerOne).data 0 0 0
      = (cross_correlation_2d (constImg 1 1 1 7) kerOne).data 0 0 0 :=
  (convolve_eq_correlate_flip (constImg 1 1 1 7) kerOne).2.2
    (fun _ _ _ _ => rfl) 0 0 0

/-- C4: for a positive weight profile (as `exp(-d / (2 sigma^2))` is for
sigma > 0) and positive dimensions, `gaussian_blur_kernel_2d` returns an
(h, w) kernel whose entry (i, j) is proportional to the profile at the
squared distance from the center cell (h / 2, w / 2), whose entries sum
to exactly 1, and which is symmetric under 180-degree rotation when
h = w and both are odd. -/
theorem gaussian_kernel_spec (e : ℤ → ℚ) (height width : ℕ)
    (hh : 0 < height) (hw : 0 < width) (hpos : ∀ d, 0 < e d) :
    (gaussian_blur_kernel_2d e height width).m = height ∧
    (gaussian_blur_kernel_2d e height width).n = width ∧
    (∃ c : ℚ, 0 < c ∧ ∀ i j,
      (gaussian_blur_kernel_2d e height width).data i j
        = c * e (distSq height width i j)) ∧
    (∑ i ∈ Finset.range height, ∑ j ∈ Finset.range width,
        (gaussian_blur_kernel_2d e height width).data i j = 1) ∧
    (height = width → Odd height → ∀ i j, i < height → j < height →
      (gaussian_blur_kernel_2d e height width).data i j
        = (gaussian_blur_kernel_2d e height width).data
            (height - 1 - i) (height - 1 - j)) := by
  have htot := gaussTotal_pos e height width hh hw hpos
  refine ⟨rfl, rfl,
    ⟨(gaussTotal e height width)⁻¹, inv_pos.mpr htot, ?_⟩,
    gauss_sum_eq_one e height width hh hw hpos, ?_⟩
  · intro i j
    simp only [gaussian_blur_kernel_2d, gaussEntry]
    rw [div_eq_inv_mul]
  · rintro rfl hodd i j hi hj
    have hm2 : height % 2 = 1 := Nat.odd_iff.mp hodd
    simp only [gaussian_blur_kernel_2d, gaussEntry]
    congr 2
    unfold distSq
    have hi2 : ((height - 1 - i : ℕ) : ℤ) = 2 * ((height / 2 : ℕ) : ℤ) - i := by
      omega
    have hj2 : ((height - 1 - j : ℕ) : ℤ) = 2 * ((height / 2 : ℕ) : ℤ) - j := by
      omega
    rw [hi2, hj2]
    ring

/-- Witness for C4 at the constant profile and a 3×3 grid. -/
theorem gaussian_kernel_spec_witness :
    (gaussian_blur_kernel_2d oneE 3 3).m = 3 :=
  (gaussian_kernel_spec oneE 3 3 (by decide) (by decide) (fun _ => one_pos)).1

/-- Changing a mode string into another one selecting the same filter
leaves the pipeline output unchanged (the first image's mode). -/
lemma hybridAfterNorm_congr1 (i1 i2 : Image) (e1 : ℤ → ℚ) (size1 : ℕ)
    (m m' : String) (e2 : ℤ → ℚ) (size2 : ℕ) (hl2 : String) (mix sf : ℚ)
    (h : selectFilter e1 size1 m i1 = selectFilter e1 size1 m' i1) :
    hybridAfterNorm i1 i2 e1 size1 m e2 size2 hl2 mix sf
      = hybridAfterNorm i1 i2 e1 size1 m' e2 size2 hl2 mix sf := by
  unfold hybridAfterNorm
  rw [h]

/-- Changing a mode string into another one selecting the same filter
leaves the pipeline output unchanged (the second image's mode). -/
lemma hybridAfterNorm_congr2 (i1 i2 : Image) (e1 : ℤ → ℚ) (size1 : ℕ)
    (hl1 : String) (e2 : ℤ → ℚ) (size2 : ℕ) (m m' : String) (mix sf : ℚ)
    (h : selectFilter e2 size2 m i2 = selectFilter e2 size2 m' i2) :
    hybridAfterNorm i1 i2 e1 size1 hl1 e2 size2 m mix sf
      = hybridAfterNorm i1 i2 e1 size1 hl1 e2 size2 m' mix sf := by
  unfold hybridAfterNorm
  rw [h]

/-- Every mode string other than "low" selects the high-pass filter. -/
lemma selectFilter_of_ne (e : ℤ → ℚ) (size : ℕ) (m : String) (img : Image)
    (h : m ≠ "low") : selectFilter e size m img = high_pass e img size := by
  unfold selectFilter
  rw [if_neg h]

/-- C2: for same-shape 8-bit inputs and any parameter bundle,
`create_hybrid_image` succeeds and returns the image obtained by dividing
both inputs by 255, filtering each by its selected (lowercased) mode,
weighting by 1 - mix and mix, summing, scaling by sf, multiplying by 255,
clipping to [0, 255] and truncating to an 8-bit value; consequently every
output sample is at most 255 (and, being a natural number, at least 0). -/
theorem create_hybrid_image_spec (img1 img2 : RawImage) (e1 : ℤ → ℚ)
    (size1 : ℕ) (hl1 : String) (e2 : ℤ → ℚ) (size2 : ℕ) (hl2 : String)
    (mix sf : ℚ) (hd1 : img1.dtype = DType.uint8)
    (hd2 : img2.dtype = DType.uint8) (hH : img1.img.H = img2.img.H)
    (hW : img1.img.W = img2.img.W) (hC : img1.img.C = img2.img.C) :
    ∃ out,
      create_hybrid_image img1 img2 e1 size1 hl1 e2 size2 hl2 mix sf
        = Except.ok out ∧
      out.H = img1.img.H ∧ out.W = img1.img.W ∧ out.C = img1.img.C ∧
      (∀ i j k, i < img1.img.H → j < img1.img.W → k < img1.img.C →
        out.data i j k = toUint8 (255 * (sf *
          ((1 - mix) * (selectFilter e1 size1 (pyLower hl1)
              (scaleImage (1 / 255) img1.img)).data i j k +
            mix * (selectFilter e2 size2 (pyLower hl2)
              (scaleImage (1 / 255) img2.img)).data i j k)))) ∧
      (∀ i j k, out.data i j k ≤ 255) := by
  have hmain := hybridAfterNorm_spec (scaleImage (1 / 255) img1.img)
    (scaleImage (1 / 255) img2.img) e1 size1 (pyLower hl1) e2 size2
    (pyLower hl2) mix sf hH hW hC
  simpa only [create_hybrid_image, if_pos hd1, scaleImage] using hmain

/-- Witness for C2 at concrete same-shape uint8 images. -/
theorem create_hybrid_image_spec_witness :
    ∃ out,
      create_hybrid_image ⟨DType.uint8, constImg 1 1 1 7⟩
          ⟨DType.uint8, constImg 1 1 1 3⟩ oneE 1 "low" oneE 1 "high"
          (1 / 2) 1 = Except.ok out := by
  obtain ⟨out, hok, -⟩ := create_hybrid_image_spec
    ⟨DType.uint8, constImg 1 1 1 7⟩ ⟨DType.uint8, constImg 1 1 1 3⟩
    oneE 1 "low" oneE 1 "high" (1 / 2) 1 rfl rfl rfl rfl rfl
  exact ⟨out, hok⟩

/-- C9: the normalization decision of `create_hybrid_image` depends only
on img1's dtype: the output never depends on img2's dtype; when img1 is
uint8 both images are divided by 255; when img1 is not uint8 neither is,
even if img2 is uint8. -/
theorem create_hybrid_dtype_spec (A B : Image) (d1 d2 d2p : DType)
    (e1 : ℤ → ℚ) (size1 : ℕ) (hl1 : String) (e2 : ℤ → ℚ) (size2 : ℕ)
    (hl2 : String) (mix sf : ℚ) :
    (create_hybrid_image ⟨d1, A⟩ ⟨d2, B⟩ e1 size1 hl1 e2 size2 hl2 mix sf
        = create_hybrid_image ⟨d1, A⟩ ⟨d2p, B⟩ e1 size1 hl1 e2 size2 hl2
            mix sf) ∧
    (create_hybrid_image ⟨DType.uint8, A⟩ ⟨d2, B⟩ e1 size1 hl1 e2 size2 hl2
        mix sf
      = hybridAfterNorm (scaleImage (1 / 255) A) (scaleImage (1 / 255) B)
          e1 size1 (pyLower hl1) e2 size2 (pyLower hl2) mix sf) ∧
    (d1 ≠ DType.uint8 →
      create_hybrid_image ⟨d1, A⟩ ⟨DType.uint8, B⟩ e1 size1 hl1 e2 size2 hl2
          mix sf
        = hybridAfterNorm A B e1 size1 (pyLower hl1) e2 size2 (pyLower hl2)
            mix sf) := by
  refine ⟨rfl, rfl, ?_⟩
  intro h
  simp only [create_hybrid_image]
  rw [if_neg h]

/-- Witness for C9: a non-uint8 img1 paired with a uint8 img2 skips the
division for both. -/
theorem create_hybrid_dtype_spec_witness :
    create_hybrid_image ⟨DType.float32, constImg 1 1 1 7⟩
        ⟨DType.uint8, constImg 1 1 1 3⟩ oneE 1 "low" oneE 1 "low" (1 / 2) 1
      = hybridAfterNorm (constImg 1 1 1 7) (constImg 1 1 1 3) oneE 1
          (pyLower "low") oneE 1 (pyLower "low") (1 / 2) 1 :=
  (create_hybrid_dtype_spec (constImg 1 1 1 7) (constImg 1 1 1 3)
    DType.float32 DType.uint8 DType.uint8 oneE 1 "low" oneE 1 "low"
    (1 / 2) 1).2.2 (by decide)

/-- C10: the mode selectors of `create_hybrid_image` are never validated:
a mode whose lowercase form is "low" behaves exactly like "low", every
other string (including invalid modes) behaves exactly like "high", and
for same-shape inputs every pair of mode strings yields a successful
result (no mode raises an error). -/
theorem create_hybrid_mode_spec (i1 i2 : RawImage) (e1 : ℤ → ℚ) (size1 : ℕ)
    (e2 : ℤ → ℚ) (size2 : ℕ) (s1 s2 : String) (mix sf : ℚ)
    (hH : i1.img.H = i2.img.H) (hW : i1.img.W = i2.img.W)
    (hC : i1.img.C = i2.img.C) :
    (pyLower s1 = "low" →
      create_hybrid_image i1 i2 e1 size1 s1 e2 size2 s2 mix sf
        = create_hybrid_image i1 i2 e1 size1 "low" e2 size2 s2 mix sf) ∧
    (pyLower s1 ≠ "low" →
      create_hybrid_image i1 i2 e1 size1 s1 e2 size2 s2 mix sf
        = create_hybrid_image i1 i2 e1 size1 "high" e2 size2 s2 mix sf) ∧
    (pyLower s2 = "low" →
      create_hybrid_image i1 i2 e1 size1 s1 e2 size2 s2 mix sf
        = create_hybrid_image i1 i2 e1 size1 s1 e2 size2 "low" mix sf) ∧
    (pyLower s2 ≠ "low" →
      create_hybrid_image i1 i2 e1 size1 s1 e2 size2 s2 mix sf
        = create_hybrid_image i1 i2 e1 size1 s1 e2 size2 "high" mix sf) ∧
    (∃ out, create_hybrid_image i1 i2 e1 size1 s1 e2 size2 s2 mix sf
        = Except.ok out) := by
  refine ⟨?_, ?_, ?_, ?_, ?_⟩
  · intro hs1
    have hmode : pyLower s1 = pyLower "low" := hs1
    simp only [create_hybrid_image, hmode]
  · intro hs1
    simp only [create_hybrid_image]
    split
    · exact hybridAfterNorm_congr1 _ _ _ _ _ _ _ _ _ _ _
        ((selectFilter_of_ne _ _ _ _ hs1).trans
          (selectFilter_of_ne _ _ _ _ (by decide)).symm)
    · exact hybridAfterNorm_congr1 _ _ _ _ _ _ _ _ _ _ _
        ((selectFilter_of_ne _ _ _ _ hs1).trans
          (selectFilter_of_ne _ _ _ _ (by decide)).symm)
  · intro hs2
    have hmode : pyLower s2 = pyLower "low" := hs2
    simp only [create_hybrid_image, hmode]
  · intro hs2
    simp only [create_hybrid_image]
    split
    · exact hybridAfterNorm_congr2 _ _ _ _ _ _ _ _ _ _ _
        ((selectFilter_of_ne _ _ _ _ hs2).trans
          (selectFilter_of_ne _ _ _ _ (by decide)).symm)
    · exact hybridAfterNorm_congr2 _ _ _ _ _ _ _ _ _ _ _
        ((selectFilter_of_ne _ _ _ _ hs2).trans
          (selectFilter_of_ne _ _ _ _ (by decide)).symm)
  · simp only [create_hybrid_image]
    split
    · obtain ⟨out, hok, -⟩ := hybridAfterNorm_spec (scaleImage (1 / 255) i1.img)
        (scaleImage (1 / 255) i2.img) e1 size1 (pyLower s1) e2 size2
        (pyLower s2) mix sf hH hW hC
      exact ⟨out, hok⟩
    · obtain ⟨out, hok, -⟩ := hybridAfterNorm_spec i1.img i2.img e1 size1
        (pyLower s1) e2 size2 (pyLower s2) mix sf hH hW hC
      exact ⟨out, hok⟩

/-- Witness for C10: the invalid mode string "band" silently selects the
high-pass filter. -/
theorem create_hybrid_mode_spec_witness :
    create_hybrid_image ⟨DType.float32, constImg 1 1 1 7⟩
        ⟨DType.float32, constImg 1 1 1 3⟩ oneE 1 "band" oneE 1 "low"
        (1 / 2) 1
      = create_hybrid_image ⟨DType.float32, constImg 1 1 1 7⟩
          ⟨DType.float32, constImg 1 1 1 3⟩ oneE 1 "high" oneE 1 "low"
          (1 / 2) 1 :=
  (create_hybrid_mode_spec ⟨DType.float32, constImg 1 1 1 7⟩
    ⟨DType.float32, constImg 1 1 1 3⟩ oneE 1 oneE 1 "band" "low" (1 / 2) 1
    rfl rfl rfl).2.1 (by decide)

/-- The pipeline after normalization fails with numpy's broadcast
ValueError when the filtered shapes are broadcast-incompatible. -/
lemma hybridAfterNorm_error (i1 i2 : Image) (e1 : ℤ → ℚ) (size1 : ℕ)
    (hl1 : String) (e2 : ℤ → ℚ) (size2 : ℕ) (hl2 : String) (mix sf : ℚ)
    (hcp : (bcompat i1.H i2.H && bcompat i1.W i2.W && bcompat i1.C i2.C)
      = false) :
    hybridAfterNorm i1 i2 e1 size1 hl1 e2 size2 hl2 mix sf
      = Except.error PyError.valueError := by
  have hcond : (bcompat (scaleImage (1 - mix) (selectFilter e1 size1 hl1 i1)).H
        (scaleImage mix (selectFilter e2 size2 hl2 i2)).H &&
      bcompat (scaleImage (1 - mix) (selectFilter e1 size1 hl1 i1)).W
        (scaleImage mix (selectFilter e2 size2 hl2 i2)).W &&
      bcompat (scaleImage (1 - mix) (selectFilter e1 size1 hl1 i1)).C
        (scaleImage mix (selectFilter e2 size2 hl2 i2)).C) = false := by
    rw [show (scaleImage (1 - mix) (selectFilter e1 size1 hl1 i1)).H = i1.H from
        selectFilter_H _ _ _ _,
      show (scaleImage mix (selectFilter e2 size2 hl2 i2)).H = i2.H from
        selectFilter_H _ _ _ _,
      show (scaleImage (1 - mix) (selectFilter e1 size1 hl1 i1)).W = i1.W from
        selectFilter_W _ _ _ _,
      show (scaleImage mix (selectFilter e2 size2 hl2 i2)).W = i2.W from
        selectFilter_W _ _ _ _,
      show (scaleImage (1 - mix) (selectFilter e1 size1 hl1 i1)).C = i1.C from
        selectFilter_C _ _ _ _,
      show (scaleImage mix (selectFilter e2 size2 hl2 i2)).C = i2.C from
        selectFilter_C _ _ _ _]
    exact hcp
  simp only [hybridAfterNorm, numpyAdd]
  rw [if_neg (by simp [hcond])]

/-- C6 counterexample: at a 10×10 and a 10×12 image the call does not
return the postulated ShapeMismatch; the numpy addition of the two
already-filtered images raises ValueError instead. -/
theorem create_hybrid_shape_counterexample :
    create_hybrid_image ⟨DType.float32, constImg 10 10 3 1⟩
        ⟨DType.float32, constImg 10 12 3 1⟩ oneE 3 "low" oneE 3 "low"
        (1 / 2) 1 = Except.error PyError.valueError ∧
    PyError.valueError ≠ PyError.shapeMismatch :=
  ⟨rfl, by decide⟩

/-- C6 amended: `create_hybrid_image` performs no up-front shape check;
for images whose shapes are broadcast-incompatible, both images are
filtered and the elementwise sum of the weighted filtered images then
fails with numpy's ValueError (never a ShapeMismatch before filtering). -/
theorem create_hybrid_shape_error (img1 img2 : RawImage) (e1 : ℤ → ℚ)
    (size1 : ℕ) (hl1 : String) (e2 : ℤ → ℚ) (size2 : ℕ) (hl2 : String)
    (mix sf : ℚ)
    (hcp : (bcompat img1.img.H img2.img.H && bcompat img1.img.W img2.img.W &&
      bcompat img1.img.C img2.img.C) = false) :
    create_hybrid_image img1 img2 e1 size1 hl1 e2 size2 hl2 mix sf
      = Except.error PyError.valueError := by
  simp only [create_hybrid_image]
  split
  · exact hybridAfterNorm_error _ _ _ _ _ _ _ _ _ _ hcp
  · exact hybridAfterNorm_error _ _ _ _ _ _ _ _ _ _ hcp

/-- Witness for the amended C6 at concrete 2×2 and 2×3 images. -/
theorem create_hybrid_shape_error_witness :
    create_hybrid_image ⟨DType.uint8, constImg 2 2 1 1⟩
        ⟨DType.uint8, constImg 2 3 1 1⟩ oneE 1 "low" oneE 1 "high" (1 / 2) 1
      = Except.error PyError.valueError :=
  create_hybrid_shape_error ⟨DType.uint8, constImg 2 2 1 1⟩
    ⟨DType.uint8, constImg 2 3 1 1⟩ oneE 1 "low" oneE 1 "high" (1 / 2) 1
    (by decide)

/-- C7 counterexample: even kernel dimensions are not rejected:
`gaussian_blur_kernel_2d` asked for a 4×5 kernel returns one (normalized,
entries 1/20 under the constant profile), and `cross_correlation_2d`
applied with an even 2×2 kernel computes a value instead of raising. -/
theorem even_kernel_counterexample :
    (gaussian_blur_kernel_2d oneE 4 5).m = 4 ∧
    (gaussian_blur_kernel_2d oneE 4 5).n = 5 ∧
    (gaussian_blur_kernel_2d oneE 4 5).data 0 0 = 1 / 20 ∧
    (cross_correlation_2d (constImg 1 1 1 5)
      { m := 2, n := 2, data := fun _ _ => 1 }).data 0 0 0 = 5 := by
  refine ⟨rfl, rfl, ?_, ?_⟩
  · simp only [gaussian_blur_kernel_2d, gaussEntry, gaussTotal, oneE,
      Finset.sum_range_succ, Finset.sum_range_zero]
    norm_num
  · simp only [cross_correlation_2d, paddedData, constImg,
      Finset.sum_range_succ, Finset.sum_range_zero]
    norm_num

/-- C7 amended: no kernel-shape validation exists; with an even height or
width, `gaussian_blur_kernel_2d` still returns the requested normalized
kernel (its entries sum to 1, centered at the floor-division center), and
`cross_correlation_2d` with such a kernel still returns an image of the
input's shape. -/
theorem even_kernel_no_error (e : ℤ → ℚ) (height width : ℕ)
    (hh : 0 < height) (hw : 0 < width) (hpos : ∀ d, 0 < e d)
    (hEvn : Even height ∨ Even width) :
    (gaussian_blur_kernel_2d e height width).m = height ∧
    (gaussian_blur_kernel_2d e height width).n = width ∧
    (∑ i ∈ Finset.range height, ∑ j ∈ Finset.range width,
        (gaussian_blur_kernel_2d e height width).data i j = 1) ∧
    (∀ img : Image,
      (cross_correlation_2d img (gaussian_blur_kernel_2d e height width)).H
          = img.H ∧
      (cross_correlation_2d img (gaussian_blur_kernel_2d e height width)).W
          = img.W ∧
      (cross_correlation_2d img (gaussian_blur_kernel_2d e height width)).C
          = img.C) :=
  ⟨rfl, rfl, gauss_sum_eq_one e height width hh hw hpos,
    fun _ => ⟨rfl, rfl, rfl⟩⟩

/-- Witness for the amended C7 at the even 4×5 kernel shape. -/
theorem even_kernel_no_error_witness :
    (gaussian_blur_kernel_2d oneE 4 5).m = 4 :=
  (even_kernel_no_error oneE 4 5 (by decide) (by decide) (fun _ => one_pos)
    (Or.inl (by decide))).1

/-- C8 counterexample: an even (invalid per the spec) size 4 is not
rejected: `low_pass` of the 1×1 unit image computes 1/16 and `high_pass`
computes 15/16 instead of raising InvalidFilterParameter. -/
theorem filter_even_size_counterexample :
    (low_pass oneE (constImg 1 1 1 1) 4).data 0 0 0 = 1 / 16 ∧
    (high_pass oneE (constImg 1 1 1 1) 4).data 0 0 0 = 15 / 16 := by
  have hlow : (low_pass oneE (constImg 1 1 1 1) 4).data 0 0 0 = 1 / 16 := by
    simp only [low_pass, cross_correlation_2d, paddedData, constImg,
      gaussian_blur_kernel_2d, gaussEntry, gaussTotal, oneE,
      Finset.sum_range_succ, Finset.sum_range_zero]
    norm_num
  refine ⟨hlow, ?_⟩
  simp only [high_pass]
  rw [hlow]
  simp only [constImg]
  norm_num

/-- C8 amended: `low_pass` and `high_pass` validate nothing: any size
(even included) is forwarded to the kernel generator and the correlation
engine, the output keeps the input's shape, the even-sized kernel still
sums to 1, and `high_pass` is still the input minus its low-pass; no
error is raised (and a non-positive sigma would produce non-finite kernel
values in numpy, not a typed rejection). -/
theorem filters_no_validation (e : ℤ → ℚ) (img : Image) (size : ℕ)
    (hpos : ∀ d, 0 < e d) (hsz : 0 < size) (hEvn : Even size) :
    (low_pass e img size).H = img.H ∧
    (low_pass e img size).W = img.W ∧
    (low_pass e img size).C = img.C ∧
    (∑ i ∈ Finset.range size, ∑ j ∈ Finset.range size,
        (gaussian_blur_kernel_2d e size size).data i j = 1) ∧
    (∀ i j k, (high_pass e img size).data i j k
        = img.data i j k - (low_pass e img size).data i j k) :=
  ⟨rfl, rfl, rfl, gauss_sum_eq_one e size size hsz hsz hpos,
    fun _ _ _ => rfl⟩

/-- Witness for the amended C8 at the even size 4. -/
theorem filters_no_validation_witness :
    (low_pass oneE (constImg 1 1 1 1) 4).H = (constImg 1 1 1 1).H :=
  (filters_no_validation oneE (constImg 1 1 1 1) 4 (fun _ => one_pos)
    (by decide) (by decide)).1

end Hybrid
